import Mathlib

/-!
Shallow embedding of the celeste_times tool (src/main.py): the save-file
parser (`parse_areas`), the time formatter (`parse_time`), the signed
difference formatter (`find_diff`) and the comparison-row builder
(`generate_results`).  Machine integers are modelled as `Nat`/`Int`,
Python list indexing as `pyIndex`, Python exceptions as `Option`.
-/

/-- Renders a natural number zero-padded to `w` digits, as Python's
`f"{n:0wd}"` does for non-negative `n`. -/
def padZero (w : Nat) (n : Nat) : String :=
  let s := toString n
  String.mk (List.replicate (w - s.length) '0') ++ s

/-- Embedding of `parse_time` (src/main.py:31-47): raw ticks are divided by
10000 to get milliseconds, the milliseconds are decomposed by `divmod` into
hours, minutes, seconds and milliseconds, and the components are rendered
with the source's asymmetric padding. -/
def parse_time (time_ : Nat) : String :=
  let ms := time_ / 10000
  let hours := ms / 3600000
  let remainder := ms % 3600000
  let mins := remainder / 60000
  let remainder2 := remainder % 60000
  let secs := remainder2 / 1000
  let ms2 := remainder2 % 1000
  let front : String :=
    if hours > 0 then toString hours ++ ":" ++ padZero 2 mins ++ ":"
    else if mins > 0 then toString mins ++ ":"
    else ""
  let secPart : String :=
    (if hours > 0 || mins > 0 then padZero 2 secs else toString secs) ++ "."
  front ++ secPart ++ padZero 3 ms2

/-- Embedding of `find_diff` (src/main.py:136-139): the formatted absolute
difference, with the `'-' * a_is_faster` prefix. -/
def find_diff (time_a time_b : Nat) : String :=
  let a_is_faster := decide (time_a < time_b)
  let diff := max time_a time_b - min time_a time_b
  (if a_is_faster then "-" else "") ++ parse_time diff

/-- One `AreaStats` record (src/main.py:14-19). -/
structure AreaStats where
  name : String
  completed : Bool
  time_played : Nat
  deaths : Nat
deriving DecidableEq, Repr

/-- One `SaveFile` record (src/main.py:22-28).  `id_` is an `Int` because
the slot id comes from Python's `int(input)`. -/
structure SaveFile where
  id_ : Int
  game_completed : Bool
  total_time : Nat
  total_deaths : Nat
  areas : List AreaStats
deriving DecidableEq, Repr

/-- One stats element inside a mode: the three XML attributes the parser
reads (src/main.py:120-122).  `Completed` is kept as the raw attribute
string, compared against `"true"` by the code. -/
structure StatsEntry where
  completed : String
  timePlayed : Nat
  deaths : Nat
deriving DecidableEq, Repr

/-- One child of the `Areas` container.  Its XML children (`area[0]`,
`area[1]`, ...) are the per-mode lists of stats elements; the source
indexes `area[0]`. -/
structure AreaEntry where
  modes : List (List StatsEntry)
deriving DecidableEq, Repr

/-- One top-level child of the save document's root: its tag and, when the
tag is `"Areas"`, its children seen as area entries. -/
structure XmlChild where
  tag : String
  areaEntries : List AreaEntry
deriving DecidableEq, Repr

/-- One parsed save document (the root element's children). -/
structure SaveDoc where
  children : List XmlChild
deriving DecidableEq, Repr

/-- Python list indexing `l[i]`: negative indices count from the end,
out-of-range access raises `IndexError` (here `none`). -/
def pyIndex {α : Type} (l : List α) (i : Int) : Option α :=
  let j : Int := if i < 0 then (l.length : Int) + i else i
  if 0 ≤ j ∧ j < (l.length : Int) then l.get? j.toNat else none

/-- The 33-slot chapter catalog of `parse_areas` (src/main.py:96-106), in
forward source order, before the `reversed` call. -/
def area_names_forward : List (Option String) :=
  [some "Prologue", none, none,
   some "1a", some "1b", some "1c",
   some "2a", some "2b", some "2c",
   some "3a", some "3b", some "3c",
   some "4a", some "4b", some "4c",
   some "5a", some "5b", some "5c",
   some "6a", some "6b", some "6c",
   some "7a", some "7b", some "7c",
   none, none, none,
   some "8a", some "8b", some "8c",
   some "Farewell", none, none]

/-- The mutable loop state of `parse_areas`: the (reversed) remaining
catalog list and the accumulators. -/
structure ParseState where
  area_names : List (Option String)
  total_deaths : Nat
  total_time : Nat
  areas : List AreaStats
  game_completed : Bool
deriving DecidableEq, Repr

/-- One iteration of the innermost loop of `parse_areas`
(src/main.py:115-130): `area_names.pop()` (off the end; empty list raises),
skip placeholder slots, otherwise build the `AreaStats` and accumulate. -/
def processStats (st : ParseState) (s : StatsEntry) : Option ParseState :=
  match st.area_names.getLast? with
  | none => none
  | some nameOpt =>
    let st1 : ParseState :=
      { st with area_names := st.area_names.dropLast }
    match nameOpt with
    | none => some st1
    | some area_name =>
      let completed := s.completed == "true"
      let gc := if completed && area_name == "Farewell" then true
                else st1.game_completed
      some { st1 with
              game_completed := gc
              areas := st1.areas ++ [⟨area_name, completed, s.timePlayed, s.deaths⟩]
              total_time := st1.total_time + s.timePlayed
              total_deaths := st1.total_deaths + s.deaths }

/-- Runs `processStats` over a list of stats elements (the body of
`for area_stats in area[0]`). -/
def runStats : ParseState → List StatsEntry → Option ParseState
  | st, [] => some st
  | st, s :: rest =>
    match processStats st s with
    | none => none
    | some st2 => runStats st2 rest

/-- One iteration of `for area in child` (src/main.py:114-115): `area[0]`
raises `IndexError` when the area entry has no children, otherwise its
stats elements are processed. -/
def runArea (st : ParseState) (a : AreaEntry) : Option ParseState :=
  match a.modes.head? with
  | none => none
  | some firstMode => runStats st firstMode

/-- Runs `runArea` over the children of the `Areas` container. -/
def runAreas : ParseState → List AreaEntry → Option ParseState
  | st, [] => some st
  | st, a :: rest =>
    match runArea st a with
    | none => none
    | some st2 => runAreas st2 rest

/-- The `for child in ... getroot()` loop of `parse_areas`
(src/main.py:112-131): processes the first `"Areas"` child and `break`s,
skipping every other tag. -/
def walkChildren : ParseState → List XmlChild → Option ParseState
  | st, [] => some st
  | st, c :: rest =>
    if c.tag == "Areas" then runAreas st c.areaEntries
    else walkChildren st rest

/-- The initial state of `parse_areas`: `area_names` is
`list(reversed([...]))`, the accumulators are zero/empty/false. -/
def initState : ParseState :=
  ⟨area_names_forward.reverse, 0, 0, [], false⟩

/-- Embedding of `parse_areas` (src/main.py:95-133). -/
def parse_areas (all_saves : List SaveDoc) (save_id : Int) : Option SaveFile :=
  match pyIndex all_saves save_id with
  | none => none
  | some doc =>
    match walkChildren initState doc.children with
    | none => none
    | some st =>
      some ⟨save_id, st.game_completed, st.total_time, st.total_deaths, st.areas⟩

/-- A table cell of the rendered rows: Python lets the row dicts hold
either strings or integers. -/
inductive Cell where
  | str (s : String)
  | num (n : Int)
deriving DecidableEq, Repr

/-- One row of the `time_rows`/`death_rows` sequences built by
`generate_results` (src/main.py:154-192). -/
structure Row where
  chapter : String
  result_a : Cell
  result_b : Cell
  diff : Cell
  a_is_better : Bool
  b_is_better : Bool
deriving DecidableEq, Repr

/-- The per-chapter time row of src/main.py:154-161. -/
def timeRowOf (a b : AreaStats) : Row :=
  { chapter := a.name
    result_a := Cell.str (parse_time a.time_played)
    result_b := Cell.str (parse_time b.time_played)
    diff := Cell.str (find_diff a.time_played b.time_played)
    a_is_better := decide (a.time_played < b.time_played)
    b_is_better := decide (a.time_played > b.time_played) }

/-- The per-chapter death row of src/main.py:163-170. -/
def deathRowOf (a b : AreaStats) : Row :=
  { chapter := a.name
    result_a := Cell.num a.deaths
    result_b := Cell.num b.deaths
    diff := Cell.num ((a.deaths : Int) - (b.deaths : Int))
    a_is_better := decide (a.deaths < b.deaths)
    b_is_better := decide (a.deaths > b.deaths) }

/-- The `for area_a, area_b in zip(...)` loop of src/main.py:150-170: a
pair contributes a row to each sequence exactly when both sides are
completed. -/
def chapterRows : List (AreaStats × AreaStats) → List Row × List Row
  | [] => ([], [])
  | p :: rest =>
    let prev := chapterRows rest
    if p.1.completed && p.2.completed then
      (timeRowOf p.1 p.2 :: prev.1, deathRowOf p.1 p.2 :: prev.2)
    else prev

/-- Embedding of the row-building part of `generate_results`
(src/main.py:148-192); the Jinja templating and file output around it are
plain I/O.  `result_a`, `result_b` and `diff` model the
`None if completed else "-"` values and the later `x or y` fallbacks. -/
def generate_results (save_a save_b : SaveFile) : List Row × List Row :=
  let rows := chapterRows (save_a.areas.zip save_b.areas)
  let result_a : Option String := if save_a.game_completed then none else some "-"
  let result_b : Option String := if save_b.game_completed then none else some "-"
  let diff : Option String :=
    if save_a.game_completed && save_b.game_completed then none else some "-"
  let totalTimeRow : Row :=
    { chapter := "TOTAL TIME"
      result_a := Cell.str (result_a.getD (parse_time save_a.total_time))
      result_b := Cell.str (result_b.getD (parse_time save_b.total_time))
      diff := Cell.str (diff.getD (find_diff save_a.total_time save_b.total_time))
      a_is_better := if diff.isSome then false
                     else decide (save_a.total_time < save_b.total_time)
      b_is_better := if diff.isSome then false
                     else decide (save_a.total_time > save_b.total_time) }
  let totalDeathsRow : Row :=
    { chapter := "TOTAL DEATHS"
      result_a := match result_a with
                  | some s => Cell.str s
                  | none => Cell.num save_a.total_deaths
      result_b := match result_b with
                  | some s => Cell.str s
                  | none => Cell.num save_b.total_deaths
      diff := match diff with
              | some s => Cell.str s
              | none => Cell.num ((save_a.total_deaths : Int) - (save_b.total_deaths : Int))
      a_is_better := if diff.isSome then false
                     else decide (save_a.total_deaths < save_b.total_deaths)
      b_is_better := if diff.isSome then false
                     else decide (save_a.total_deaths > save_b.total_deaths) }
  (rows.1 ++ [totalTimeRow], rows.2 ++ [totalDeathsRow])

/-! ### Variant formulations of the parser, for the refinement claims -/

/-- The reversed-pairing reading of the spec: the last raw stats entry is
paired with the first catalog slot, i.e. the i-th raw entry (forward
order) receives catalog slot `33 - 1 - i`.  Identical to `processStats`
except that the name is taken from the head of the reversed list. -/
def processStatsClaimed (st : ParseState) (s : StatsEntry) : Option ParseState :=
  match st.area_names.head? with
  | none => none
  | some nameOpt =>
    let st1 : ParseState :=
      { st with area_names := st.area_names.tail }
    match nameOpt with
    | none => some st1
    | some area_name =>
      let completed := s.completed == "true"
      let gc := if completed && area_name == "Farewell" then true
                else st1.game_completed
      some { st1 with
              game_completed := gc
              areas := st1.areas ++ [⟨area_name, completed, s.timePlayed, s.deaths⟩]
              total_time := st1.total_time + s.timePlayed
              total_deaths := st1.total_deaths + s.deaths }

/-- Runs `processStatsClaimed` over a list of stats elements. -/
def runStatsClaimed : ParseState → List StatsEntry → Option ParseState
  | st, [] => some st
  | st, s :: rest =>
    match processStatsClaimed st s with
    | none => none
    | some st2 => runStatsClaimed st2 rest

/-- Per-area step of the reversed-pairing variant. -/
def runAreaClaimed (st : ParseState) (a : AreaEntry) : Option ParseState :=
  match a.modes.head? with
  | none => none
  | some firstMode => runStatsClaimed st firstMode

/-- Areas loop of the reversed-pairing variant. -/
def runAreasClaimed : ParseState → List AreaEntry → Option ParseState
  | st, [] => some st
  | st, a :: rest =>
    match runAreaClaimed st a with
    | none => none
    | some st2 => runAreasClaimed st2 rest

/-- Root walk of the reversed-pairing variant. -/
def walkChildrenClaimed : ParseState → List XmlChild → Option ParseState
  | st, [] => some st
  | st, c :: rest =>
    if c.tag == "Areas" then runAreasClaimed st c.areaEntries
    else walkChildrenClaimed st rest

/-- The parser as claim C1 describes it: raw stats entries and catalog
slots paired in reversed order. -/
def parse_areas_claimed (all_saves : List SaveDoc) (save_id : Int) : Option SaveFile :=
  match pyIndex all_saves save_id with
  | none => none
  | some doc =>
    match walkChildrenClaimed initState doc.children with
    | none => none
    | some st =>
      some ⟨save_id, st.game_completed, st.total_time, st.total_deaths, st.areas⟩

/-- Loop state of the explicit forward-index reimplementation suggested by
the spec: an index into `area_names_forward` read forward, instead of the
mutable reversed list. -/
structure FwdState where
  idx : Nat
  total_deaths : Nat
  total_time : Nat
  areas : List AreaStats
  game_completed : Bool
deriving DecidableEq, Repr

/-- Per-stats-entry step of the forward-index reimplementation: reads
`area_names_forward[idx]` (out of range raises) and advances the index. -/
def processStatsFwd (fs : FwdState) (s : StatsEntry) : Option FwdState :=
  match area_names_forward.get? fs.idx with
  | none => none
  | some nameOpt =>
    let fs1 : FwdState := { fs with idx := fs.idx + 1 }
    match nameOpt with
    | none => some fs1
    | some area_name =>
      let completed := s.completed == "true"
      let gc := if completed && area_name == "Farewell" then true
                else fs1.game_completed
      some { fs1 with
              game_completed := gc
              areas := fs1.areas ++ [⟨area_name, completed, s.timePlayed, s.deaths⟩]
              total_time := fs1.total_time + s.timePlayed
              total_deaths := fs1.total_deaths + s.deaths }

/-- Runs `processStatsFwd` over a list of stats elements. -/
def runStatsFwd : FwdState → List StatsEntry → Option FwdState
  | fs, [] => some fs
  | fs, s :: rest =>
    match processStatsFwd fs s with
    | none => none
    | some fs2 => runStatsFwd fs2 rest

/-- Per-area step of the forward-index reimplementation. -/
def runAreaFwd (fs : FwdState) (a : AreaEntry) : Option FwdState :=
  match a.modes.head? with
  | none => none
  | some firstMode => runStatsFwd fs firstMode

/-- Areas loop of the forward-index reimplementation. -/
def runAreasFwd : FwdState → List AreaEntry → Option FwdState
  | fs, [] => some fs
  | fs, a :: rest =>
    match runAreaFwd fs a with
    | none => none
    | some fs2 => runAreasFwd fs2 rest

/-- Root walk of the forward-index reimplementation. -/
def walkChildrenFwd : FwdState → List XmlChild → Option FwdState
  | fs, [] => some fs
  | fs, c :: rest =>
    if c.tag == "Areas" then runAreasFwd fs c.areaEntries
    else walkChildrenFwd fs rest

/-- Initial state of the forward-index reimplementation. -/
def initStateFwd : FwdState := ⟨0, 0, 0, [], false⟩

/-- The explicit forward-index reimplementation of `parse_areas` proposed
by the spec's design notes: the i-th raw stats entry is paired with
`area_names_forward[i]`. -/
def parse_areas_fwd (all_saves : List SaveDoc) (save_id : Int) : Option SaveFile :=
  match pyIndex all_saves save_id with
  | none => none
  | some doc =>
    match walkChildrenFwd initStateFwd doc.children with
    | none => none
    | some fs =>
      some ⟨save_id, fs.game_completed, fs.total_time, fs.total_deaths, fs.areas⟩

/-- The children of the first `"Areas"` child of the root, if any. -/
def firstAreasEntries : List XmlChild → Option (List AreaEntry)
  | [] => none
  | c :: rest =>
    if c.tag == "Areas" then some c.areaEntries
    else firstAreasEntries rest

/-- Concatenates the first mode of every area entry, in document order;
`none` when some area entry has no children at all (the `area[0]`
`IndexError`). -/
def gatherStats : List AreaEntry → Option (List StatsEntry)
  | [] => some []
  | a :: rest =>
    match a.modes.head? with
    | none => none
    | some m => (gatherStats rest).map (m ++ ·)

/-- All stats entries a document offers for scoring, in forward order; a
document without an `"Areas"` child offers none. -/
def docStats (doc : SaveDoc) : Option (List StatsEntry) :=
  match firstAreasEntries doc.children with
  | none => some []
  | some entries => gatherStats entries

/-- Scores one (stats entry, catalog slot) pair into a `SaveFile`
accumulator: placeholder slots contribute nothing, real slots append an
`AreaStats` and accumulate the totals and the `Farewell` flag. -/
def scorePair (sf : SaveFile) (p : StatsEntry × Option String) : SaveFile :=
  match p.2 with
  | none => sf
  | some area_name =>
    let completed := p.1.completed == "true"
    { sf with
        game_completed := if completed && area_name == "Farewell" then true
                          else sf.game_completed
        areas := sf.areas ++ [⟨area_name, completed, p.1.timePlayed, p.1.deaths⟩]
        total_time := sf.total_time + p.1.timePlayed
        total_deaths := sf.total_deaths + p.1.deaths }

/-- Positional-pairing formulation of the parser: the document's stats
entries, in forward order, are zipped with the catalog read forward, and
the pairs are folded; more stats entries than catalog slots is the
pop-from-empty-list error. -/
def parse_areas_zip (all_saves : List SaveDoc) (save_id : Int) : Option SaveFile :=
  match pyIndex all_saves save_id with
  | none => none
  | some doc =>
    match docStats doc with
    | none => none
    | some stats =>
      if stats.length ≤ area_names_forward.length then
        some ((stats.zip area_names_forward).foldl scorePair ⟨save_id, false, 0, 0, []⟩)
      else none

lemma runStatsFwd_append (l1 l2 : List StatsEntry) :
    ∀ fs, runStatsFwd fs (l1 ++ l2)
      = (runStatsFwd fs l1).bind (fun fs2 => runStatsFwd fs2 l2) := by
  induction l1 with
  | nil => intro fs; rfl
  | cons s rest ih =>
    intro fs
    rw [List.cons_append]
    cases h : processStatsFwd fs s with
    | none => simp [runStatsFwd, h]
    | some fs2 => simp [runStatsFwd, h, ih fs2]

lemma walkChildrenFwd_firstAreas (children : List XmlChild) :
    ∀ fs, walkChildrenFwd fs children
      = match firstAreasEntries children with
        | none => some fs
        | some e => runAreasFwd fs e := by
  induction children with
  | nil => intro fs; rfl
  | cons c rest ih =>
    intro fs
    by_cases h : c.tag == "Areas"
    · simp [walkChildrenFwd, firstAreasEntries, h]
    · simp [walkChildrenFwd, firstAreasEntries, h, ih fs]

lemma runAreasFwd_gather (entries : List AreaEntry) :
    ∀ fs, runAreasFwd fs entries
      = (gatherStats entries).bind (fun stats => runStatsFwd fs stats) := by
  induction entries with
  | nil => intro fs; rfl
  | cons a rest ih =>
    intro fs
    cases hm : a.modes.head? with
    | none => simp [runAreasFwd, runAreaFwd, gatherStats, hm]
    | some m =>
      cases hg : gatherStats rest with
      | none =>
        cases hr : runStatsFwd fs m with
        | none => simp [runAreasFwd, runAreaFwd, gatherStats, hm, hg, hr]
        | some fs2 =>
          have h2 := ih fs2
          rw [hg] at h2
          simp [runAreasFwd, runAreaFwd, gatherStats, hm, hg, hr, h2]
      | some stats =>
        cases hr : runStatsFwd fs m with
        | none => simp [runAreasFwd, runAreaFwd, gatherStats, hm, hg, hr, runStatsFwd_append]
        | some fs2 =>
          have h2 := ih fs2
          rw [hg] at h2
          simp [runAreasFwd, runAreaFwd, gatherStats, hm, hg, hr, runStatsFwd_append, h2]

/-- Interprets a `SaveFile` accumulator plus a catalog index as a
forward-index loop state. -/
def fwdOf (sf : SaveFile) (i : Nat) : FwdState :=
  ⟨i, sf.total_deaths, sf.total_time, sf.areas, sf.game_completed⟩

lemma processStatsFwd_fwdOf (sf : SaveFile) (i : Nat) (s : StatsEntry)
    (x : Option String) (h : area_names_forward[i]? = some x) :
    processStatsFwd (fwdOf sf i) s = some (fwdOf (scorePair sf (s, x)) (i + 1)) := by
  cases x with
  | none => simp [processStatsFwd, fwdOf, scorePair, h]
  | some nm => simp [processStatsFwd, fwdOf, scorePair, h]

lemma runStatsFwd_success (stats : List StatsEntry) :
    ∀ (sf : SaveFile) (i : Nat), i + stats.length ≤ area_names_forward.length →
      runStatsFwd (fwdOf sf i) stats
        = some (fwdOf ((stats.zip (area_names_forward.drop i)).foldl scorePair sf)
                       (i + stats.length)) := by
  induction stats with
  | nil => intro sf i h; simp [runStatsFwd]
  | cons s rest ih =>
    intro sf i h
    simp only [List.length_cons] at h
    have hi : i < area_names_forward.length := by omega
    have hget : area_names_forward[i]? = some area_names_forward[i] :=
      List.getElem?_eq_getElem hi
    have hdrop : area_names_forward.drop i
        = area_names_forward[i] :: area_names_forward.drop (i + 1) :=
      List.drop_eq_getElem_cons hi
    have hrec := ih (scorePair sf (s, area_names_forward[i])) (i + 1) (by omega)
    calc runStatsFwd (fwdOf sf i) (s :: rest)
        = runStatsFwd (fwdOf (scorePair sf (s, area_names_forward[i])) (i + 1)) rest := by
          simp [runStatsFwd, processStatsFwd_fwdOf sf i s _ hget]
      _ = some (fwdOf ((rest.zip (area_names_forward.drop (i + 1))).foldl scorePair
                        (scorePair sf (s, area_names_forward[i])))
                       (i + 1 + rest.length)) := hrec
      _ = some (fwdOf (((s :: rest).zip (area_names_forward.drop i)).foldl scorePair sf)
                       (i + (rest.length + 1))) := by
          rw [hdrop]
          simp only [List.zip_cons_cons, List.foldl_cons, List.length_cons]
          have harith : i + 1 + rest.length = i + (rest.length + 1) := by omega
          rw [harith]

lemma processStatsFwd_idx {fs fs' : FwdState} {s : StatsEntry}
    (h : processStatsFwd fs s = some fs') : fs'.idx = fs.idx + 1 := by
  unfold processStatsFwd at h
  cases hg : area_names_forward.get? fs.idx with
  | none => rw [hg] at h; simp at h
  | some x =>
    rw [hg] at h
    cases x with
    | none =>
      simp only [Option.some.injEq] at h
      rw [← h]
    | some nm =>
      simp only [Option.some.injEq] at h
      rw [← h]

lemma runStatsFwd_overflow (stats : List StatsEntry) :
    ∀ fs : FwdState, stats ≠ [] →
      area_names_forward.length < fs.idx + stats.length →
      runStatsFwd fs stats = none := by
  induction stats with
  | nil => intro fs hne h; exact absurd rfl hne
  | cons s rest ih =>
    intro fs hne h
    cases hp : processStatsFwd fs s with
    | none => simp [runStatsFwd, hp]
    | some fs2 =>
      have hidx : fs2.idx = fs.idx + 1 := processStatsFwd_idx hp
      have hlt : fs.idx < area_names_forward.length := by
        unfold processStatsFwd at hp
        cases hg : area_names_forward.get? fs.idx with
        | none => rw [hg] at hp; simp at hp
        | some x => exact (List.get?_eq_some.mp hg).1
      cases rest with
      | nil => simp only [List.length_cons, List.length_nil] at h; omega
      | cons r rrest =>
        have h2 := ih fs2 (by simp)
          (by rw [hidx]; simp only [List.length_cons] at h ⊢; omega)
        rw [runStatsFwd, hp]
        exact h2

lemma scorePair_id (sf : SaveFile) (p : StatsEntry × Option String) :
    (scorePair sf p).id_ = sf.id_ := by
  cases hp : p.2 with
  | none => simp [scorePair, hp]
  | some nm => simp [scorePair, hp]

lemma foldl_scorePair_id (ps : List (StatsEntry × Option String)) :
    ∀ sf, (ps.foldl scorePair sf).id_ = sf.id_ := by
  induction ps with
  | nil => intro sf; rfl
  | cons p rest ih => intro sf; rw [List.foldl_cons, ih, scorePair_id]

lemma parse_areas_fwd_eq_zip (all_saves : List SaveDoc) (save_id : Int) :
    parse_areas_fwd all_saves save_id = parse_areas_zip all_saves save_id := by
  unfold parse_areas_fwd parse_areas_zip
  cases pyIndex all_saves save_id with
  | none => rfl
  | some doc =>
    dsimp only
    rw [walkChildrenFwd_firstAreas]
    unfold docStats
    cases hf : firstAreasEntries doc.children with
    | none =>
      dsimp only
      simp [initStateFwd]
    | some entries =>
      dsimp only
      rw [runAreasFwd_gather]
      cases hg : gatherStats entries with
      | none => rfl
      | some stats =>
        dsimp only [Option.bind]
        by_cases hl : stats.length ≤ area_names_forward.length
        · have hs := runStatsFwd_success stats ⟨save_id, false, 0, 0, []⟩ 0
            (by omega)
          have hinit : initStateFwd = fwdOf ⟨save_id, false, 0, 0, []⟩ 0 := rfl
          rw [hinit, hs, if_pos hl]
          dsimp only [fwdOf]
          rw [List.drop_zero]
          have hid := foldl_scorePair_id (stats.zip area_names_forward)
            ⟨save_id, false, 0, 0, []⟩
          generalize (stats.zip area_names_forward).foldl scorePair
              ⟨save_id, false, 0, 0, []⟩ = SF at *
          obtain ⟨i0, gc, tt, td, ar⟩ := SF
          simp only at hid
          rw [hid]
        · have hne : stats ≠ [] := by
            intro h0
            subst h0
            simp [area_names_forward] at hl
          rw [runStatsFwd_overflow stats initStateFwd hne
            (by simp only [initStateFwd]; omega), if_neg hl]

/-- Interprets a forward-index state as the concrete loop state of
`parse_areas`: the remaining reversed catalog list is the not-yet-consumed
forward suffix, reversed. -/
def toRev (fs : FwdState) : ParseState :=
  ⟨(area_names_forward.drop fs.idx).reverse, fs.total_deaths, fs.total_time,
   fs.areas, fs.game_completed⟩

lemma dropLast_reverse (l : List (Option String)) :
    l.reverse.dropLast = l.tail.reverse := by
  cases l with
  | nil => rfl
  | cons a t => simp [List.reverse_cons]

lemma processStats_toRev (fs : FwdState) (s : StatsEntry) :
    processStats (toRev fs) s = (processStatsFwd fs s).map toRev := by
  unfold processStats processStatsFwd toRev
  simp only [List.getLast?_reverse, List.head?_drop, List.get?_eq_getElem?]
  cases h : area_names_forward[fs.idx]? with
  | none => simp
  | some nameOpt =>
    cases nameOpt with
    | none =>
      simp [dropLast_reverse, List.tail_drop]
    | some nm =>
      simp [dropLast_reverse, List.tail_drop]

lemma runStats_toRev (es : List StatsEntry) :
    ∀ fs, runStats (toRev fs) es = (runStatsFwd fs es).map toRev := by
  induction es with
  | nil => intro fs; rfl
  | cons s rest ih =>
    intro fs
    unfold runStats runStatsFwd
    rw [processStats_toRev]
    cases processStatsFwd fs s with
    | none => rfl
    | some fs2 => simpa using ih fs2

lemma runArea_toRev (fs : FwdState) (a : AreaEntry) :
    runArea (toRev fs) a = (runAreaFwd fs a).map toRev := by
  unfold runArea runAreaFwd
  cases a.modes.head? with
  | none => rfl
  | some m => simpa using runStats_toRev m fs

lemma runAreas_toRev (entries : List AreaEntry) :
    ∀ fs, runAreas (toRev fs) entries = (runAreasFwd fs entries).map toRev := by
  induction entries with
  | nil => intro fs; rfl
  | cons a rest ih =>
    intro fs
    unfold runAreas runAreasFwd
    rw [runArea_toRev]
    cases runAreaFwd fs a with
    | none => rfl
    | some fs2 => simpa using ih fs2

lemma walkChildren_toRev (children : List XmlChild) :
    ∀ fs, walkChildren (toRev fs) children = (walkChildrenFwd fs children).map toRev := by
  induction children with
  | nil => intro fs; rfl
  | cons c rest ih =>
    intro fs
    unfold walkChildren walkChildrenFwd
    by_cases h : c.tag == "Areas"
    · simp only [h, if_pos]
      exact runAreas_toRev c.areaEntries fs
    · simp only [h]
      exact ih fs

lemma initState_toRev : initState = toRev initStateFwd := rfl

lemma parse_areas_eq_fwd (all_saves : List SaveDoc) (save_id : Int) :
    parse_areas all_saves save_id = parse_areas_fwd all_saves save_id := by
  unfold parse_areas parse_areas_fwd
  cases pyIndex all_saves save_id with
  | none => rfl
  | some doc =>
    dsimp only
    rw [initState_toRev, walkChildren_toRev]
    cases walkChildrenFwd initStateFwd doc.children with
    | none => rfl
    | some fs => rfl

/-! ### Claim theorems -/

/-- C4: for every non-negative raw tick count, `parse_time` divides by
10000 to get milliseconds and renders hours `ms / 3600000`, minutes
`ms / 60000 % 60`, seconds `ms / 1000 % 60` and milliseconds `ms % 1000`
as `"H:MM:SS.mmm"` when hours are positive, `"M:SS.mmm"` when only minutes
are positive, and `"S.mmm"` otherwise, with the stated zero padding; the
three fixtures 0, 65 s and 1 h 2 min 3 s render as stated. -/
theorem C4_format_time_rendering (raw : Nat) :
    parse_time raw =
      (let ms := raw / 10000
       let hours := ms / 3600000
       let mins := ms / 60000 % 60
       let secs := ms / 1000 % 60
       let milli := ms % 1000
       if hours > 0 then
         toString hours ++ ":" ++ padZero 2 mins ++ ":" ++ padZero 2 secs
           ++ "." ++ padZero 3 milli
       else if mins > 0 then
         toString mins ++ ":" ++ padZero 2 secs ++ "." ++ padZero 3 milli
       else
         toString secs ++ "." ++ padZero 3 milli)
    ∧ parse_time 0 = "0.000"
    ∧ parse_time 650000000 = "1:05.000"
    ∧ parse_time 37230000000 = "1:02:03.000" := by
  refine ⟨?_, by decide, by decide, by decide⟩
  unfold parse_time
  have h1 : raw / 10000 % 3600000 / 60000 = raw / 10000 / 60000 % 60 := by
    rw [show (3600000 : Nat) = 60000 * 60 from rfl, Nat.mod_mul_right_div_self]
  have h2 : raw / 10000 % 3600000 % 60000 = raw / 10000 % 60000 :=
    Nat.mod_mod_of_dvd _ (by norm_num)
  have h3 : raw / 10000 % 60000 / 1000 = raw / 10000 / 1000 % 60 := by
    rw [show (60000 : Nat) = 1000 * 60 from rfl, Nat.mod_mul_right_div_self]
  have h4 : raw / 10000 % 60000 % 1000 = raw / 10000 % 1000 :=
    Nat.mod_mod_of_dvd _ (by norm_num)
  dsimp only
  rw [h1, h2, h3, h4]
  by_cases hh : raw / 10000 / 3600000 > 0
  · simp [hh, String.append_assoc]
  · by_cases hm : raw / 10000 / 60000 % 60 > 0
    · simp [hh, hm, String.append_assoc]
    · simp [hh, hm, String.append_assoc]

/-- C5: `find_diff` renders the formatted absolute difference of its two
arguments, prefixed with a minus sign exactly when the first argument is
smaller, and the magnitude is symmetric in the two arguments. -/
theorem C5_diff_sign_and_magnitude (time_a time_b : Nat) :
    find_diff time_a time_b
      = (if time_a < time_b then "-" else "")
          ++ parse_time ((time_a : Int) - (time_b : Int)).natAbs
    ∧ ((time_a : Int) - (time_b : Int)).natAbs
        = ((time_b : Int) - (time_a : Int)).natAbs := by
  constructor
  · unfold find_diff
    have habs : max time_a time_b - min time_a time_b
        = ((time_a : Int) - (time_b : Int)).natAbs := by
      by_cases h : time_a ≤ time_b
      · simp only [Nat.max_def, Nat.min_def, if_pos h]
        omega
      · simp only [Nat.max_def, Nat.min_def, if_neg h]
        omega
    rw [habs]
    by_cases hlt : time_a < time_b
    · simp [hlt]
    · simp [hlt]
  · omega

/-- A two-entry fixture document: one area entry whose first mode holds two
completed stats entries with distinct times and deaths. -/
def docTwoEntries : SaveDoc :=
  ⟨[⟨"Areas", [⟨[[⟨"true", 5, 1⟩, ⟨"true", 7, 2⟩]]⟩]⟩]⟩

/-- C1 counterexample: on a document with two raw stats entries the code
pairs the FIRST raw entry with the first catalog slot ("Prologue"), while
the claimed reversed pairing (i-th raw entry receives slot 33-1-i) would
land both entries on trailing placeholder slots and produce an empty save;
the two results differ. -/
theorem C1_reversed_pairing_counterexample :
    parse_areas [docTwoEntries] 0
        = some ⟨0, false, 5, 1, [⟨"Prologue", true, 5, 1⟩]⟩
    ∧ parse_areas_claimed [docTwoEntries] 0
        = some ⟨0, false, 0, 0, []⟩
    ∧ parse_areas [docTwoEntries] 0 ≠ parse_areas_claimed [docTwoEntries] 0 :=
  ⟨by decide, by decide, by decide⟩

/-- C1 amended: raw stats entries (in forward document order) and the
catalog are paired positionally FORWARD — the i-th raw entry receives
catalog slot i, because popping from the end of the reversed list cancels
the reversal: `parse_areas` coincides with the zip-with-forward-catalog
formulation on every input. -/
theorem C1_forward_positional_pairing (all_saves : List SaveDoc) (save_id : Int) :
    parse_areas all_saves save_id = parse_areas_zip all_saves save_id :=
  (parse_areas_eq_fwd all_saves save_id).trans
    (parse_areas_fwd_eq_zip all_saves save_id)

/-- C3: the implemented pop-from-reversed-catalog consumption is
behaviorally identical to the reimplementation that pairs the i-th stats
entry processed (forward order, 0-based) with `area_names_forward[i]` read
forward via an explicit index: both produce the same `SaveFile` (or the
same failure) on every document list and slot id. -/
theorem C3_pop_reversed_equals_forward_index
    (all_saves : List SaveDoc) (save_id : Int) :
    parse_areas all_saves save_id = parse_areas_fwd all_saves save_id :=
  parse_areas_eq_fwd all_saves save_id

/-- A fixture document with no "Areas" child. -/
def docNoAreas : SaveDoc := ⟨[⟨"Name", []⟩]⟩

/-- C10 counterexample: with one loaded save, slot id -1 lies outside the
range 0..0, yet `parse_areas` does not fail: Python's negative indexing
silently selects the last loaded save and returns its summary. -/
theorem C10_negative_slot_counterexample :
    parse_areas [docNoAreas] (-1) = some ⟨-1, false, 0, 0, []⟩ := by
  decide

/-- C10 amended: `parse_areas` fails with the IndexError-equivalent only
for slot ids at or beyond the loaded count, or below minus the loaded
count; negative ids in `[-n, -1]` are silently accepted by Python list
indexing (see the counterexample). -/
theorem C10_out_of_range_slot_fails (all_saves : List SaveDoc) (slot_id : Int)
    (h : slot_id < -(all_saves.length : Int)
        ∨ (all_saves.length : Int) ≤ slot_id) :
    parse_areas all_saves slot_id = none := by
  have hcond : ¬(0 ≤ (if slot_id < 0 then (all_saves.length : Int) + slot_id else slot_id)
      ∧ (if slot_id < 0 then (all_saves.length : Int) + slot_id else slot_id)
        < (all_saves.length : Int)) := by
    by_cases hs : slot_id < 0
    · simp only [if_pos hs]
      omega
    · simp only [if_neg hs]
      omega
  have hnone : pyIndex all_saves slot_id = none := by
    unfold pyIndex
    dsimp only
    rw [if_neg hcond]
  unfold parse_areas
  rw [hnone]

/-- Witness for C10: the empty saves list with slot id 5. -/
theorem C10_out_of_range_slot_fails_witness :
    ((5 : Int) < -((([] : List SaveDoc).length : Int))
        ∨ ((([] : List SaveDoc).length : Int) ≤ (5 : Int)))
    ∧ parse_areas ([] : List SaveDoc) 5 = none :=
  ⟨Or.inr (by decide), C10_out_of_range_slot_fails [] 5 (Or.inr (by decide))⟩

/-- Keeps only the first mode child of an area entry. -/
def truncArea (a : AreaEntry) : AreaEntry := ⟨a.modes.take 1⟩

/-- Keeps only the first mode child of every area entry of a root child. -/
def truncChild (c : XmlChild) : XmlChild := ⟨c.tag, c.areaEntries.map truncArea⟩

/-- Keeps only the first mode child of every area entry of a document. -/
def truncDoc (d : SaveDoc) : SaveDoc := ⟨d.children.map truncChild⟩

lemma head?_take_one {α : Type} (l : List α) : (l.take 1).head? = l.head? := by
  cases l <;> rfl

lemma pyIndex_map {α β : Type} (f : α → β) (l : List α) (i : Int) :
    pyIndex (l.map f) i = (pyIndex l i).map f := by
  unfold pyIndex
  simp only [List.length_map]
  by_cases h : 0 ≤ (if i < 0 then (l.length : Int) + i else i)
      ∧ (if i < 0 then (l.length : Int) + i else i) < (l.length : Int)
  · rw [if_pos h, if_pos h]
    simp [List.getElem?_map]
  · rw [if_neg h, if_neg h]
    rfl

lemma runArea_trunc (st : ParseState) (a : AreaEntry) :
    runArea st (truncArea a) = runArea st a := by
  unfold runArea truncArea
  dsimp only
  rw [head?_take_one]

lemma runAreas_trunc (entries : List AreaEntry) :
    ∀ st, runAreas st (entries.map truncArea) = runAreas st entries := by
  induction entries with
  | nil => intro st; rfl
  | cons a rest ih =>
    intro st
    simp only [List.map_cons]
    unfold runAreas
    rw [runArea_trunc]
    cases runArea st a with
    | none => rfl
    | some st2 => exact ih st2

lemma walkChildren_trunc (children : List XmlChild) :
    ∀ st, walkChildren st (children.map truncChild) = walkChildren st children := by
  induction children with
  | nil => intro st; rfl
  | cons c rest ih =>
    intro st
    simp only [List.map_cons]
    unfold walkChildren truncChild
    by_cases h : c.tag == "Areas"
    · simp only [h, if_pos]
      exact runAreas_trunc c.areaEntries st
    · simp only [h]
      exact ih st

/-- C2: only the first mode child of each area entry matters: deleting
every later mode child of every area entry changes nothing — the parse
result (including catalog consumption, areas, totals, completion flag and
success/failure) is identical.  Later modes are never scored. -/
theorem C2_only_first_mode_scored (all_saves : List SaveDoc) (save_id : Int) :
    parse_areas (all_saves.map truncDoc) save_id = parse_areas all_saves save_id := by
  unfold parse_areas
  rw [pyIndex_map]
  cases pyIndex all_saves save_id with
  | none => rfl
  | some doc =>
    simp only [Option.map_some']
    unfold truncDoc
    dsimp only
    rw [walkChildren_trunc]

lemma chapterRows_map_chapter (ps : List (AreaStats × AreaStats)) :
    ((chapterRows ps).1.map Row.chapter
        = (ps.filter (fun p => p.1.completed && p.2.completed)).map
            (fun p => p.1.name))
    ∧ ((chapterRows ps).2.map Row.chapter
        = (ps.filter (fun p => p.1.completed && p.2.completed)).map
            (fun p => p.1.name)) := by
  induction ps with
  | nil => exact ⟨rfl, rfl⟩
  | cons p rest ih =>
    by_cases h : p.1.completed && p.2.completed
    · simp [chapterRows, List.filter_cons, h, timeRowOf, deathRowOf, ih.1, ih.2]
    · simp [chapterRows, List.filter_cons, h, ih.1, ih.2]

/-- Fixture save A: three chapters, all completed. -/
def sampleSaveA : SaveFile :=
  ⟨0, false, 60, 5, [⟨"1a", true, 10, 1⟩, ⟨"1b", true, 20, 2⟩, ⟨"1c", true, 30, 2⟩]⟩

/-- Fixture save B: the same three chapters, all completed, distinct
times and deaths. -/
def sampleSaveB : SaveFile :=
  ⟨1, false, 90, 8, [⟨"1a", true, 15, 2⟩, ⟨"1b", true, 35, 3⟩, ⟨"1c", true, 40, 3⟩]⟩

/-- C6: `generate_results` pairs the two area lists positionally and emits
one per-chapter row (labelled with side A's chapter name) in each sequence
exactly for the pairs where both sides are completed, followed by the
totals row; omission is silent (the function is total).  On the
three-chapter all-completed fixtures each sequence has exactly 4 rows, in
catalog order, totals last. -/
theorem C6_rows_require_both_completed (save_a save_b : SaveFile) :
    (generate_results save_a save_b).1.map Row.chapter
        = ((save_a.areas.zip save_b.areas).filter
            (fun p => p.1.completed && p.2.completed)).map (fun p => p.1.name)
          ++ ["TOTAL TIME"]
    ∧ (generate_results save_a save_b).2.map Row.chapter
        = ((save_a.areas.zip save_b.areas).filter
            (fun p => p.1.completed && p.2.completed)).map (fun p => p.1.name)
          ++ ["TOTAL DEATHS"]
    ∧ (generate_results sampleSaveA sampleSaveB).1.length = 4
    ∧ (generate_results sampleSaveA sampleSaveB).2.length = 4
    ∧ (generate_results sampleSaveA sampleSaveB).1.map Row.chapter
        = ["1a", "1b", "1c", "TOTAL TIME"]
    ∧ (generate_results sampleSaveA sampleSaveB).2.map Row.chapter
        = ["1a", "1b", "1c", "TOTAL DEATHS"] := by
  refine ⟨?_, ?_, by decide, by decide, by decide, by decide⟩
  · simp only [generate_results, List.map_append]
    rw [(chapterRows_map_chapter (save_a.areas.zip save_b.areas)).1]
    rfl
  · simp only [generate_results, List.map_append]
    rw [(chapterRows_map_chapter (save_a.areas.zip save_b.areas)).2]
    rfl

/-- C7: both sequences end in exactly one totals row; a side whose save is
not game-completed renders the placeholder instead of its numeric total,
and unless BOTH saves are game-completed the diff is the placeholder and
both better-flags are false; otherwise totals are compared with strict
inequalities. -/
theorem C7_totals_row (save_a save_b : SaveFile) :
    (generate_results save_a save_b).1.getLast?
        = some { chapter := "TOTAL TIME"
                 result_a := Cell.str (if save_a.game_completed then
                    parse_time save_a.total_time else "-")
                 result_b := Cell.str (if save_b.game_completed then
                    parse_time save_b.total_time else "-")
                 diff := Cell.str (if save_a.game_completed && save_b.game_completed
                    then find_diff save_a.total_time save_b.total_time else "-")
                 a_is_better := if save_a.game_completed && save_b.game_completed
                    then decide (save_a.total_time < save_b.total_time) else false
                 b_is_better := if save_a.game_completed && save_b.game_completed
                    then decide (save_a.total_time > save_b.total_time) else false }
    ∧ (generate_results save_a save_b).2.getLast?
        = some { chapter := "TOTAL DEATHS"
                 result_a := if save_a.game_completed then
                    Cell.num save_a.total_deaths else Cell.str "-"
                 result_b := if save_b.game_completed then
                    Cell.num save_b.total_deaths else Cell.str "-"
                 diff := if save_a.game_completed && save_b.game_completed
                    then Cell.num ((save_a.total_deaths : Int)
                      - (save_b.total_deaths : Int)) else Cell.str "-"
                 a_is_better := if save_a.game_completed && save_b.game_completed
                    then decide (save_a.total_deaths < save_b.total_deaths) else false
                 b_is_better := if save_a.game_completed && save_b.game_completed
                    then decide (save_a.total_deaths > save_b.total_deaths) else false } := by
  constructor
  · simp only [generate_results, List.getLast?_concat]
    cases ha : save_a.game_completed <;> cases hb : save_b.game_completed <;> simp
  · simp only [generate_results, List.getLast?_concat]
    cases ha : save_a.game_completed <;> cases hb : save_b.game_completed <;> simp

/-- Tests whether a (stats entry, catalog slot) pair is a completed
Farewell hit. -/
def farewellHit (p : StatsEntry × Option String) : Bool :=
  match p.2 with
  | some n => (p.1.completed == "true") && (n == "Farewell")
  | none => false

lemma scorePair_gc (sf : SaveFile) (p : StatsEntry × Option String) :
    (scorePair sf p).game_completed = (sf.game_completed || farewellHit p) := by
  cases hp : p.2 with
  | none => simp [scorePair, farewellHit, hp]
  | some nm =>
    simp only [scorePair, farewellHit, hp]
    cases hc : (p.1.completed == "true") && (nm == "Farewell") <;> simp [hc]

lemma foldl_scorePair_gc (ps : List (StatsEntry × Option String)) :
    ∀ sf, (ps.foldl scorePair sf).game_completed
      = (sf.game_completed || ps.any farewellHit) := by
  induction ps with
  | nil => intro sf; simp
  | cons p rest ih =>
    intro sf
    rw [List.foldl_cons, ih, List.any_cons, scorePair_gc, Bool.or_assoc]

lemma farewellHit_iff (p : StatsEntry × Option String) :
    farewellHit p = true ↔ p.1.completed = "true" ∧ p.2 = some "Farewell" := by
  cases hp : p.2 with
  | none => simp [farewellHit, hp]
  | some nm => simp [farewellHit, hp]

/-- C8: the summary's `game_completed` flag is true exactly when some
scored stats entry whose catalog slot is "Farewell" carries the attribute
`Completed="true"`; completed entries on other slots, or a non-completed
Farewell entry, leave it false. -/
theorem C8_game_completed_iff_farewell (all_saves : List SaveDoc) (save_id : Int)
    (doc : SaveDoc) (stats : List StatsEntry) (sf : SaveFile)
    (hdoc : pyIndex all_saves save_id = some doc)
    (hstats : docStats doc = some stats)
    (hparse : parse_areas all_saves save_id = some sf) :
    sf.game_completed = true
      ↔ ∃ p ∈ stats.zip area_names_forward,
          p.1.completed = "true" ∧ p.2 = some "Farewell" := by
  rw [parse_areas_eq_fwd, parse_areas_fwd_eq_zip] at hparse
  unfold parse_areas_zip at hparse
  rw [hdoc] at hparse
  dsimp only at hparse
  rw [hstats] at hparse
  dsimp only at hparse
  by_cases hl : stats.length ≤ area_names_forward.length
  · rw [if_pos hl] at hparse
    injection hparse with hsf
    rw [← hsf, foldl_scorePair_gc]
    simp only [Bool.false_or, List.any_eq_true]
    constructor
    · rintro ⟨p, hmem, hhit⟩
      exact ⟨p, hmem, (farewellHit_iff p).mp hhit⟩
    · rintro ⟨p, hmem, hcond⟩
      exact ⟨p, hmem, (farewellHit_iff p).mpr hcond⟩
  · rw [if_neg hl] at hparse
    exact absurd hparse (by simp)

/-- A fixture document whose single area entry's first mode holds 31 stats
entries: thirty non-completed ones and then a completed one landing on the
"Farewell" catalog slot. -/
def docFarewell : SaveDoc :=
  ⟨[⟨"Areas", [⟨[List.replicate 30 (⟨"false", 1, 0⟩ : StatsEntry)
      ++ [⟨"true", 9, 3⟩]]⟩]⟩]⟩

/-- The stats entries `docFarewell` offers for scoring. -/
def statsFarewell : List StatsEntry :=
  List.replicate 30 (⟨"false", 1, 0⟩ : StatsEntry) ++ [⟨"true", 9, 3⟩]

/-- The summary the parser produces for `docFarewell`. -/
def sfFarewell : SaveFile :=
  ⟨0, true, 34, 3,
  [⟨"Prologue", false, 1, 0⟩,
   ⟨"1a", false, 1, 0⟩,
   ⟨"1b", false, 1, 0⟩,
   ⟨"1c", false, 1, 0⟩,
   ⟨"2a", false, 1, 0⟩,
   ⟨"2b", false, 1, 0⟩,
   ⟨"2c", false, 1, 0⟩,
   ⟨"3a", false, 1, 0⟩,
   ⟨"3b", false, 1, 0⟩,
   ⟨"3c", false, 1, 0⟩,
   ⟨"4a", false, 1, 0⟩,
   ⟨"4b", false, 1, 0⟩,
   ⟨"4c", false, 1, 0⟩,
   ⟨"5a", false, 1, 0⟩,
   ⟨"5b", false, 1, 0⟩,
   ⟨"5c", false, 1, 0⟩,
   ⟨"6a", false, 1, 0⟩,
   ⟨"6b", false, 1, 0⟩,
   ⟨"6c", false, 1, 0⟩,
   ⟨"7a", false, 1, 0⟩,
   ⟨"7b", false, 1, 0⟩,
   ⟨"7c", false, 1, 0⟩,
   ⟨"8a", false, 1, 0⟩,
   ⟨"8b", false, 1, 0⟩,
   ⟨"8c", false, 1, 0⟩,
   ⟨"Farewell", true, 9, 3⟩]⟩

/-- Witness for C8: the Farewell fixture document. -/
theorem C8_game_completed_iff_farewell_witness :
    pyIndex [docFarewell] 0 = some docFarewell
    ∧ docStats docFarewell = some statsFarewell
    ∧ parse_areas [docFarewell] 0 = some sfFarewell
    ∧ (sfFarewell.game_completed = true
        ↔ ∃ p ∈ statsFarewell.zip area_names_forward,
            p.1.completed = "true" ∧ p.2 = some "Farewell") :=
  ⟨by decide, by decide, by decide,
    C8_game_completed_iff_farewell [docFarewell] 0 docFarewell statsFarewell
      sfFarewell (by decide) (by decide) (by decide)⟩

lemma foldl_scorePair_invariant (ps : List (StatsEntry × Option String)) :
    ∀ sf : SaveFile,
      sf.total_time = (sf.areas.map AreaStats.time_played).sum
      → sf.total_deaths = (sf.areas.map AreaStats.deaths).sum
      → (∀ a ∈ sf.areas, some a.name ∈ area_names_forward)
      → (∀ p ∈ ps, ∀ n, p.2 = some n → some n ∈ area_names_forward)
      → ((ps.foldl scorePair sf).total_time
            = ((ps.foldl scorePair sf).areas.map AreaStats.time_played).sum
        ∧ (ps.foldl scorePair sf).total_deaths
            = ((ps.foldl scorePair sf).areas.map AreaStats.deaths).sum
        ∧ (∀ a ∈ (ps.foldl scorePair sf).areas, some a.name ∈ area_names_forward)) := by
  induction ps with
  | nil => intro sf h1 h2 h3 _; exact ⟨h1, h2, h3⟩
  | cons p rest ih =>
    intro sf h1 h2 h3 hps
    rw [List.foldl_cons]
    have hrest : ∀ q ∈ rest, ∀ n, q.2 = some n → some n ∈ area_names_forward :=
      fun q hq => hps q (List.mem_cons_of_mem p hq)
    cases hp : p.2 with
    | none =>
      have hsp : scorePair sf p = sf := by simp [scorePair, hp]
      rw [hsp]
      exact ih sf h1 h2 h3 hrest
    | some nm =>
      have hnm : some nm ∈ area_names_forward :=
        hps p (List.mem_cons_self p rest) nm hp
      apply ih
      · simp [scorePair, hp, h1]
      · simp [scorePair, hp, h2]
      · intro a ha
        simp only [scorePair, hp] at ha
        rcases List.mem_append.mp ha with hin | hin
        · exact h3 a hin
        · rcases List.mem_singleton.mp hin with rfl
          exact hnm
      · exact hrest

/-- C9: every processed stats entry consumes one catalog slot but only
non-placeholder slots produce an `AreaStats`; consequently every name in
`areas` is a (non-placeholder) catalog name, and the totals are exactly
the sums of `time_played` and `deaths` over `areas` — in particular a save
with no scored non-placeholder entry has an empty areas list and zero
totals. -/
theorem C9_placeholder_and_totals_invariants (all_saves : List SaveDoc)
    (save_id : Int) (sf : SaveFile)
    (hparse : parse_areas all_saves save_id = some sf) :
    sf.total_time = (sf.areas.map AreaStats.time_played).sum
    ∧ sf.total_deaths = (sf.areas.map AreaStats.deaths).sum
    ∧ (∀ a ∈ sf.areas, some a.name ∈ area_names_forward)
    ∧ (sf.areas = [] → sf.total_time = 0 ∧ sf.total_deaths = 0) := by
  rw [parse_areas_eq_fwd, parse_areas_fwd_eq_zip] at hparse
  unfold parse_areas_zip at hparse
  cases hdoc : pyIndex all_saves save_id with
  | none =>
    rw [hdoc] at hparse
    exact absurd hparse (by simp)
  | some doc =>
    rw [hdoc] at hparse
    dsimp only at hparse
    cases hstats : docStats doc with
    | none =>
      rw [hstats] at hparse
      exact absurd hparse (by simp)
    | some stats =>
      rw [hstats] at hparse
      dsimp only at hparse
      by_cases hl : stats.length ≤ area_names_forward.length
      · rw [if_pos hl] at hparse
        injection hparse with hsf
        have hmem : ∀ p ∈ stats.zip area_names_forward, ∀ n,
            p.2 = some n → some n ∈ area_names_forward := by
          intro p hpm n hn
          obtain ⟨p1, p2⟩ := p
          have h2 := (List.of_mem_zip hpm).2
          simp only at hn
          rw [hn] at h2
          exact h2
        have hinv := foldl_scorePair_invariant (stats.zip area_names_forward)
          ⟨save_id, false, 0, 0, []⟩ rfl rfl (by intro a ha; cases ha) hmem
        rw [← hsf]
        refine ⟨hinv.1, hinv.2.1, hinv.2.2, fun hempty => ?_⟩
        constructor
        · rw [hinv.1, hempty]
          rfl
        · rw [hinv.2.1, hempty]
          rfl
      · rw [if_neg hl] at hparse
        exact absurd hparse (by simp)

/-- A fixture document whose area entries have a first mode with no stats
elements at all: nothing is scored. -/
def docEmptyFirstModes : SaveDoc :=
  ⟨[⟨"Areas", [⟨[[]]⟩, ⟨[[]]⟩]⟩]⟩

/-- Witness for C9: a document scoring nothing yields empty areas and
zero totals, and the invariants hold for it. -/
theorem C9_placeholder_and_totals_invariants_witness :
    parse_areas [docEmptyFirstModes] 0 = some ⟨0, false, 0, 0, []⟩
    ∧ ((⟨0, false, 0, 0, []⟩ : SaveFile).total_time
        = (((⟨0, false, 0, 0, []⟩ : SaveFile).areas.map AreaStats.time_played).sum)
      ∧ (⟨0, false, 0, 0, []⟩ : SaveFile).total_deaths
        = (((⟨0, false, 0, 0, []⟩ : SaveFile).areas.map AreaStats.deaths).sum)
      ∧ (∀ a ∈ (⟨0, false, 0, 0, []⟩ : SaveFile).areas,
          some a.name ∈ area_names_forward)
      ∧ ((⟨0, false, 0, 0, []⟩ : SaveFile).areas = []
          → (⟨0, false, 0, 0, []⟩ : SaveFile).total_time = 0
            ∧ (⟨0, false, 0, 0, []⟩ : SaveFile).total_deaths = 0)) :=
  ⟨by decide,
    C9_placeholder_and_totals_invariants [docEmptyFirstModes] 0
      ⟨0, false, 0, 0, []⟩ (by decide)⟩
